import Mathlib

/-!
Shallow embedding of the typing-simulation engine of `human_typist.py`.

Randomness is modelled by passing the values drawn from the random source
(uniform draws, the chosen typo kind, chosen indices, the neighbor character
returned by `adjacent_key`, the Gaussian jitter sample) as explicit inputs.
The asynchronously set cancellation flag `stop_event` is modelled as a
function `stop : Nat -> Bool` of the number of primitive actions emitted so
far; `stop_never` is the un-cancelled run.  Key actions and sleeps emitted
through the keyboard controller are recorded as a list of `Act`.
-/

set_option maxRecDepth 4000

/-- A primitive action emitted by the engine: a typed character
(`Controller.type` / the enter key for a newline), a backspace key press, or
a sleep of some duration (all sleeps are collapsed to one constructor since
durations do not affect the visible text). -/
inductive Act where
  | typeChar (c : Char)
  | backspace
  | sleep
deriving DecidableEq, Repr

/-- Effect of one action on the visible text of the target field:
a typed character appends, a backspace deletes the last character,
a sleep changes nothing. -/
def applyAct (v : List Char) : Act → List Char
  | Act.typeChar c => v ++ [c]
  | Act.backspace => v.dropLast
  | Act.sleep => v

/-- The net visible text after a sequence of actions, starting from an empty
target field. -/
def netVisible (acts : List Act) : List Char :=
  acts.foldl applyAct []

/-- The apostrophe character (code 39). -/
def apostropheChar : Char := Char.ofNat 39

/-- `QWERTY_NEIGHBORS`: physically neighboring keys on a QWERTY layout
(module-level table of the source). -/
def qwerty_neighbors (c : Char) : List Char :=
  if c = 'a' then ['q', 'w', 's', 'z']
  else if c = 'b' then ['v', 'g', 'h', 'n']
  else if c = 'c' then ['x', 'd', 'f', 'v']
  else if c = 'd' then ['e', 'r', 'f', 'c', 'x', 's']
  else if c = 'e' then ['w', 's', 'd', 'f', 'r']
  else if c = 'f' then ['r', 't', 'g', 'd', 'v', 'c']
  else if c = 'g' then ['t', 'y', 'f', 'h', 'v', 'b']
  else if c = 'h' then ['y', 'u', 'g', 'j', 'n', 'b']
  else if c = 'i' then ['u', 'j', 'k', 'o']
  else if c = 'j' then ['u', 'i', 'k', 'h', 'm']
  else if c = 'k' then ['i', 'j', 'o', 'l', 'm', ',']
  else if c = 'l' then ['k', 'o', 'p', ';', '.']
  else if c = 'm' then ['n', 'j', ',']
  else if c = 'n' then ['b', 'h', 'j', 'm']
  else if c = 'o' then ['i', 'k', 'l', 'p']
  else if c = 'p' then ['o', 'l', ';', '[']
  else if c = 'q' then ['w', 'a', 's']
  else if c = 'r' then ['e', 'd', 'f', 'g', 't']
  else if c = 's' then ['a', 'q', 'w', 'z', 'e', 'd', 'x']
  else if c = 't' then ['r', 'f', 'g', 'y']
  else if c = 'u' then ['y', 'h', 'j', 'i']
  else if c = 'v' then ['c', 'f', 'g', 'b']
  else if c = 'w' then ['q', 'a', 's', 'e']
  else if c = 'x' then ['z', 's', 'd', 'c']
  else if c = 'y' then ['t', 'u', 'g', 'h']
  else if c = 'z' then ['a', 's', 'x']
  else if c = '1' then ['2', 'q']
  else if c = '2' then ['1', '3', 'w']
  else if c = '3' then ['2', '4', 'e']
  else if c = '4' then ['3', '5', 'r']
  else if c = '5' then ['4', '6', 't']
  else if c = '6' then ['5', '7', 'y']
  else if c = '7' then ['6', '8', 'u']
  else if c = '8' then ['7', '9', 'i']
  else if c = '9' then ['8', '0', 'o']
  else if c = '0' then ['9', 'p']
  else if c = ',' then ['k', 'm', 'l', '.']
  else if c = '.' then [',', ';', 'l', '/']
  else if c = ';' then ['l', ',', 'p', '.']
  else if c = apostropheChar then [';']
  else if c = '-' then ['0', '=']
  else if c = '=' then ['-']
  else if c = '/' then ['.', ';']
  else []

/-- `PUNCTUATION_SET` from the source: the characters `,.!?;:`. -/
def punctuation_set : List Char := [',', '.', '!', '?', ';', ':']

/-- `keep_case(src_char, neighbor)`: upper-cases the neighbor when the source
character is upper case. -/
def keep_case (src_char neighbor : Char) : Char :=
  if src_char.isUpper then neighbor.toUpper else neighbor

/-- `secs_per_char_for_wpm(wpm) = 12.0 / max(wpm, 1.0)` (5 chars per word
heuristic). -/
def secs_per_char_for_wpm (wpm : ℚ) : ℚ :=
  12 / max wpm 1

/-- `HumanTyper._char_delay`: clamp of the Gaussian jitter sample
(`jittered`, passed explicitly) to `max(0.001, min(jittered, base * 3))`. -/
def char_delay (base_wpm jittered : ℚ) : ℚ :=
  max (1 / 1000) (min jittered (secs_per_char_for_wpm base_wpm * 3))

/-- The `Settings` object of the source (constructor stores every field
unchecked). -/
structure Settings where
  min_wpm : ℚ
  max_wpm : ℚ
  letter_typo_rate : ℚ
  punct_typo_rate : ℚ
  enable_corrections : Bool
  micro_pauses : Bool
  think_pause_chance : ℚ
  jitter_std : ℚ
  correction_latency : ℚ × ℚ
deriving DecidableEq

/-- Default `Settings` values of the source constructor (the decimal
defaults 0.03, 0.02, 0.08, 0.25, (0.15, 0.55) written as explicit
rationals). -/
def settings_default : Settings :=
  { min_wpm := 45
  , max_wpm := 70
  , letter_typo_rate := mkRat 3 100
  , punct_typo_rate := mkRat 2 100
  , enable_corrections := true
  , micro_pauses := true
  , think_pause_chance := mkRat 8 100
  , jitter_std := mkRat 25 100
  , correction_latency := (mkRat 15 100, mkRat 55 100) }

/-- Default settings with `min_wpm = 0` (the invalid-configuration edge
case). -/
def settings_min0 : Settings :=
  { settings_default with min_wpm := 0 }

/-- A run in which the stop event is never set. -/
def stop_never : Nat → Bool := fun _ => false

/-- A run in which the stop event is observed set from the second emitted
action onward. -/
def stop_at_two : Nat → Bool := fun k => decide (2 ≤ k)

/-- `HumanTyper._type_slow`: before each character the stop flag is checked;
if set, the loop returns.  Each typed character is followed by a char-delay
sleep.  The counter `k` is the number of actions emitted so far. -/
def typeSlow (stop : Nat → Bool) (k : Nat) : List Char → List Act
  | [] => []
  | c :: rest =>
      if stop k then []
      else Act.typeChar c :: Act.sleep :: typeSlow stop (k + 2) rest

/-- `HumanTyper._backspace(n)`: `n` backspace key presses, each followed by a
fixed small sleep; the stop flag is never checked. -/
def backspace_acts : Nat → List Act
  | 0 => []
  | n + 1 => Act.backspace :: Act.sleep :: backspace_acts n

/-- The four typo kinds of `random.choices` in `_maybe_letter_typo`. -/
inductive TypoType where
  | substitution
  | transposition
  | duplicate
  | omission
deriving DecidableEq, Repr

/-- The random draws consumed by `_maybe_letter_typo`: the `random.random()`
draw compared with `letter_typo_rate`, the chosen typo kind, the chosen
index, and the output of `adjacent_key` on the substituted character. -/
structure TypoRand where
  rate_draw : ℚ
  typo_type : TypoType
  idx : Nat
  wrong : Char
deriving DecidableEq

/-- `HumanTyper._maybe_letter_typo(word)`: returns the emitted actions
together with the source's return triple `(did_typo, typed_prefix,
backspaces)`.  Out-of-range indexing (never exercised by the source, whose
`random.randint` stays in range) is modelled with `getD`. -/
def maybe_letter_typo (s : Settings) (stop : Nat → Bool) (k : Nat)
    (word : List Char) (r : TypoRand) : List Act × Bool × List Char × Nat :=
  if !s.enable_corrections then ([], false, [], 0)
  else if word.length < 3 ∨ s.letter_typo_rate ≤ r.rate_draw then
    ([], false, [], 0)
  else
    match r.typo_type with
    | TypoType.substitution =>
        let typed := word.take r.idx ++ [r.wrong]
        let acts := typeSlow stop k typed ++ [Act.sleep] ++ backspace_acts 1
        (acts, true, typed, 1)
    | TypoType.transposition =>
        if 4 ≤ word.length then
          if (word.getD r.idx ' ').isWhitespace
              || (word.getD (r.idx + 1) ' ').isWhitespace then
            ([], false, [], 0)
          else
            let typed := word.take r.idx
              ++ [word.getD (r.idx + 1) ' ', word.getD r.idx ' ']
            let acts := typeSlow stop k typed ++ [Act.sleep]
              ++ backspace_acts 2
            (acts, true, typed, 2)
        else ([], false, [], 0)
    | TypoType.duplicate =>
        let typed := word.take (r.idx + 1) ++ [word.getD r.idx ' ']
        let acts := typeSlow stop k typed ++ [Act.sleep] ++ backspace_acts 1
        (acts, true, typed, 1)
    | TypoType.omission =>
        let typed := word.take r.idx
        let acts1 := typeSlow stop k typed
        let k2 := k + acts1.length + 1 + 2 * typed.length
        let acts := acts1 ++ [Act.sleep] ++ backspace_acts typed.length
          ++ typeSlow stop k2 (word.take r.idx)
        (acts, true, word.take r.idx, typed.length)

/-- The word branch of `HumanTyper.type_text` (lines 275-280): run the typo
injector, check the stop flag (the `break`), compute
`remaining = token[len(typed_prefix):] if did_typo else token` and type it. -/
def word_branch (s : Settings) (stop : Nat → Bool) (k : Nat)
    (token : List Char) (r : TypoRand) : List Act :=
  let res := maybe_letter_typo s stop k token r
  let k2 := k + res.1.length
  if stop k2 then res.1
  else
    let remaining := if res.2.1 then token.drop res.2.2.1.length else token
    res.1 ++ typeSlow stop k2 remaining

/-- The tokenizer's accumulation predicate:
`ch.isalnum() or ch in ("'", "_")`. -/
def isWordChar (c : Char) : Bool :=
  c.isAlphanum || c = apostropheChar || c = '_'

/-- The tokenizer loop of `type_text` (lines 247-258): accumulate a run of
word characters in `cur`; any other character flushes the run and is emitted
as its own token; a trailing run is flushed. -/
def tokenizeAux : List Char → List Char → List (List Char)
  | [], cur => if cur.isEmpty then [] else [cur]
  | c :: rest, cur =>
      if isWordChar c then tokenizeAux rest (cur ++ [c])
      else (if cur.isEmpty then [] else [cur]) ++ [c] :: tokenizeAux rest []

/-- Tokenize a text (the accumulator starts empty). -/
def tokenize (text : List Char) : List (List Char) :=
  tokenizeAux text []

/-- Concatenation of the tokens in order. -/
def joinTokens (ts : List (List Char)) : List Char :=
  ts.flatten

/-- `text.replace("\r\n", "\n")`: left-to-right non-overlapping replacement
of the pair CR LF by LF. -/
def replace_crlf : List Char → List Char
  | '\r' :: '\n' :: rest => '\n' :: replace_crlf rest
  | c :: rest => c :: replace_crlf rest
  | [] => []

/-- `text.replace("\r", "\n")`: every remaining CR becomes LF. -/
def replace_cr : List Char → List Char
  | [] => []
  | c :: rest => (if c = '\r' then '\n' else c) :: replace_cr rest

/-- Line-ending normalization of `type_text` (line 244). -/
def normalize_newlines (text : List Char) : List Char :=
  replace_cr (replace_crlf text)

/-- Key lemma for the round trip: joining the tokens produced from `text`
with accumulated run `cur` yields `cur ++ text`. -/
theorem tokenizeAux_flatten (text : List Char) :
    ∀ cur : List Char, (tokenizeAux text cur).flatten = cur ++ text := by
  induction text with
  | nil =>
      intro cur
      by_cases h : cur.isEmpty
      · simp [tokenizeAux, h, List.isEmpty_iff.mp h]
      · simp [tokenizeAux, h]
  | cons c rest ih =>
      intro cur
      by_cases hword : isWordChar c
      · simp [tokenizeAux, hword, ih]
      · by_cases hcur : cur.isEmpty
        · simp [tokenizeAux, hword, hcur, ih, List.isEmpty_iff.mp hcur]
        · simp [tokenizeAux, hword, hcur, ih]

/-- Claim C3: for every input text, concatenating in order the tokens
produced by the tokenizer reproduces the original text exactly, after line
endings CRLF and CR are normalized to LF. -/
theorem C3_tokenizer_round_trip (text : List Char) :
    joinTokens (tokenize (normalize_newlines text)) = normalize_newlines text := by
  simpa [joinTokens, tokenize] using
    tokenizeAux_flatten (normalize_newlines text) []

/-- The actions `_type_slow` emits when the stop flag never fires: each
character followed by one char-delay sleep. -/
def plain_type_acts : List Char → List Act
  | [] => []
  | c :: rest => Act.typeChar c :: Act.sleep :: plain_type_acts rest

theorem typeSlow_stop_never (k : Nat) (cs : List Char) :
    typeSlow stop_never k cs = plain_type_acts cs := by
  induction cs generalizing k with
  | nil => rfl
  | cons c rest ih => simp [typeSlow, stop_never, plain_type_acts, ih]

theorem applyAct_sleep (v : List Char) : applyAct v Act.sleep = v := rfl

theorem net_plain_type (cs : List Char) :
    ∀ v : List Char, List.foldl applyAct v (plain_type_acts cs) = v ++ cs := by
  induction cs with
  | nil => intro v; simp [plain_type_acts]
  | cons c rest ih =>
      intro v
      simp only [plain_type_acts, List.foldl_cons]
      rw [show applyAct v (Act.typeChar c) = v ++ [c] from rfl, applyAct_sleep,
        ih (v ++ [c])]
      simp

theorem net_backspace_all :
    ∀ (n : Nat) (v : List Char), v.length = n →
      List.foldl applyAct v (backspace_acts n) = [] := by
  intro n
  induction n with
  | zero =>
      intro v hv
      simp [backspace_acts, List.length_eq_zero.mp hv]
  | succ m ih =>
      intro v hv
      simp only [backspace_acts, List.foldl_cons]
      rw [show applyAct v Act.backspace = v.dropLast from rfl, applyAct_sleep]
      exact ih v.dropLast (by simp [List.length_dropLast, hv])

theorem count_backspace_plain (cs : List Char) :
    (plain_type_acts cs).count Act.backspace = 0 := by
  induction cs with
  | nil => rfl
  | cons c rest ih => simp [plain_type_acts, List.count_cons, ih]

theorem count_backspace_bs (n : Nat) :
    (backspace_acts n).count Act.backspace = n := by
  induction n with
  | zero => rfl
  | succ m ih => simp [backspace_acts, List.count_cons, ih]

/-- Claim C8 (counterexample): at WPM 100000 (and jitter sample 0) the clamp
floor 0.001 exceeds baseDelay * 3 = 0.00036, so the returned delay lies
outside the claimed interval [0.001, baseDelay * 3]. -/
theorem C8_delay_bounds_counterexample :
    char_delay 100000 0 = 1 / 1000 ∧
      ¬ char_delay 100000 0 ≤ secs_per_char_for_wpm 100000 * 3 := by
  constructor
  · norm_num [char_delay, secs_per_char_for_wpm, max_def, min_def]
  · norm_num [char_delay, secs_per_char_for_wpm, max_def, min_def]

/-- Claim C8 (amended): for every WPM in [1, 36000] and every Gaussian
jitter sample, the per-character delay returned by `_char_delay` lies in the
closed interval [0.001, baseDelay(wpm) * 3]; beyond WPM 36000 the floor
0.001 exceeds the cap and the interval is empty. -/
theorem C8_delay_bounds_amended (wpm jittered : ℚ)
    (h1 : 1 ≤ wpm) (h2 : wpm ≤ 36000) :
    1 / 1000 ≤ char_delay wpm jittered ∧
      char_delay wpm jittered ≤ secs_per_char_for_wpm wpm * 3 := by
  have hw0 : (0 : ℚ) < wpm := lt_of_lt_of_le one_pos h1
  have hcap : (1 / 1000 : ℚ) ≤ secs_per_char_for_wpm wpm * 3 := by
    rw [secs_per_char_for_wpm, max_eq_left h1, div_mul_eq_mul_div,
      le_div_iff hw0]
    linarith
  constructor
  · exact le_max_left _ _
  · exact max_le hcap (min_le_right _ _)

theorem C8_delay_bounds_amended_witness :
    1 / 1000 ≤ char_delay 60 0 ∧
      char_delay 60 0 ≤ secs_per_char_for_wpm 60 * 3 :=
  C8_delay_bounds_amended 60 0 (by norm_num) (by norm_num)

/-- Claim C9: a word of length < 3 never produces a letter typo (the
injector returns occurred = false with empty prefix and zero backspaces and
emits no key actions) whatever the random draws, even when the letter typo
rate is positive; and for a word of length < 4 a transposition typo is never
performed. -/
theorem C9_typo_eligibility (s : Settings) (stop : Nat → Bool) (k : Nat)
    (w : List Char) (r : TypoRand) :
    (w.length < 3 → maybe_letter_typo s stop k w r = ([], false, [], 0)) ∧
      (w.length < 4 → r.typo_type = TypoType.transposition →
        maybe_letter_typo s stop k w r = ([], false, [], 0)) := by
  constructor
  · intro h3
    by_cases hc : s.enable_corrections
    · simp [maybe_letter_typo, hc, h3]
    · simp [maybe_letter_typo, hc]
  · intro h4 ht
    by_cases hc : s.enable_corrections
    · by_cases hcond : w.length < 3 ∨ s.letter_typo_rate ≤ r.rate_draw
      · simp [maybe_letter_typo, hc, hcond]
      · simp [maybe_letter_typo, hc, hcond, ht,
          show ¬ 4 ≤ w.length from by omega]
    · simp [maybe_letter_typo, hc]

theorem C9_typo_eligibility_witness :
    maybe_letter_typo settings_default stop_never 0 ['h', 'i']
        ⟨0, TypoType.substitution, 0, 'g'⟩ = ([], false, [], 0) ∧
      maybe_letter_typo settings_default stop_never 0 ['c', 'a', 't']
        ⟨0, TypoType.transposition, 0, 'x'⟩ = ([], false, [], 0) :=
  ⟨(C9_typo_eligibility settings_default stop_never 0 ['h', 'i']
      ⟨0, TypoType.substitution, 0, 'g'⟩).1 (by decide),
   (C9_typo_eligibility settings_default stop_never 0 ['c', 'a', 't']
      ⟨0, TypoType.transposition, 0, 'x'⟩).2 (by decide) rfl⟩

/-- Claim C10: when the omission typo fires at an interior index i of a word
of length at least 3 (and the run is not cancelled), the injector types the
length-i prefix, backspaces exactly i times, retypes that prefix, and
returns (occurred, typed prefix, backspaces) = (true, word[:i], i); the
session then types word[i:], so the net visible text equals the original
word exactly. -/
theorem C10_omission_net (s : Settings) (w : List Char) (r : TypoRand)
    (hc : s.enable_corrections = true)
    (hr : r.rate_draw < s.letter_typo_rate)
    (ht : r.typo_type = TypoType.omission)
    (hi1 : 1 ≤ r.idx) (hi2 : r.idx ≤ w.length - 2) (hw : 3 ≤ w.length) :
    (maybe_letter_typo s stop_never 0 w r).2 = (true, w.take r.idx, r.idx) ∧
      (maybe_letter_typo s stop_never 0 w r).1.count Act.backspace = r.idx ∧
      netVisible (word_branch s stop_never 0 w r) = w := by
  have hidx : r.idx ≤ w.length := by omega
  have hlen : (w.take r.idx).length = r.idx := by
    rw [List.length_take]
    exact Nat.min_eq_left hidx
  have hcond : ¬ (w.length < 3 ∨ s.letter_typo_rate ≤ r.rate_draw) := by
    push_neg
    exact ⟨by omega, hr⟩
  have hmain : maybe_letter_typo s stop_never 0 w r
      = (plain_type_acts (w.take r.idx) ++ [Act.sleep]
          ++ backspace_acts r.idx ++ plain_type_acts (w.take r.idx),
         true, w.take r.idx, r.idx) := by
    simp [maybe_letter_typo, hc, hcond, ht, typeSlow_stop_never, hlen]
  have hbs : List.foldl applyAct (w.take r.idx) (backspace_acts r.idx) = [] :=
    net_backspace_all r.idx (w.take r.idx) hlen
  refine ⟨by rw [hmain], ?_, ?_⟩
  · rw [hmain]
    simp [List.count_append, count_backspace_plain, count_backspace_bs,
      List.count_cons]
  · rw [word_branch]
    rw [hmain]
    simp only [stop_never, Bool.false_eq_true, if_false, if_true, hlen]
    rw [typeSlow_stop_never]
    rw [netVisible]
    simp [List.foldl_append, net_plain_type, applyAct_sleep, hbs,
      List.take_append_drop]

/-- Claim C1 (code evaluation at the failing input): word "their" with a
transposition typo at index 1; the injector types "teh" and backspaces
twice (visible "t"), but the session computes the remainder as
token[len(typed_prefix):] = "ir", so the net visible text is "tir", not
"their": the two corrected characters are never retyped. -/
theorem C1_typo_net_code_eval :
    (maybe_letter_typo settings_default stop_never 0
        ['t', 'h', 'e', 'i', 'r'] ⟨0, TypoType.transposition, 1, 'x'⟩).2
      = (true, ['t', 'e', 'h'], 2) ∧
      netVisible (word_branch settings_default stop_never 0
          ['t', 'h', 'e', 'i', 'r'] ⟨0, TypoType.transposition, 1, 'x'⟩)
        = ['t', 'i', 'r'] ∧
      (['t', 'i', 'r'] : List Char) ≠ ['t', 'h', 'e', 'i', 'r'] := by
  decide

/-- Claim C2 (code evaluation at the spec's scenario): word "hello", forced
substitution at index 0 with neighbor g.  The emitted sequence is: typed
prefix "g", correction-latency pause, exactly one backspace — and then the
remainder "ello" (token[1:]), not "hello" in full; the net visible result is
"ello", not "hello". -/
theorem C2_hello_substitution_eval :
    (maybe_letter_typo settings_default stop_never 0
        ['h', 'e', 'l', 'l', 'o'] ⟨0, TypoType.substitution, 0, 'g'⟩).2
      = (true, ['g'], 1) ∧
      word_branch settings_default stop_never 0
          ['h', 'e', 'l', 'l', 'o'] ⟨0, TypoType.substitution, 0, 'g'⟩
        = [Act.typeChar 'g', Act.sleep, Act.sleep, Act.backspace, Act.sleep,
           Act.typeChar 'e', Act.sleep, Act.typeChar 'l', Act.sleep,
           Act.typeChar 'l', Act.sleep, Act.typeChar 'o', Act.sleep] ∧
      netVisible (word_branch settings_default stop_never 0
          ['h', 'e', 'l', 'l', 'o'] ⟨0, TypoType.substitution, 0, 'g'⟩)
        = ['e', 'l', 'l', 'o'] ∧
      (['e', 'l', 'l', 'o'] : List Char) ≠ ['h', 'e', 'l', 'l', 'o'] ∧
      'g' ∈ qwerty_neighbors 'h' ∧ keep_case 'h' 'g' = 'g' := by
  decide

/-- Claim C4 (counterexample): word "abcd", omission typo at index 2,
cancellation observed from the second emitted action on.  `_type_slow`
observes the flag after typing only "a" of the prefix "ab" and stops, yet
the typo path still emits the correction-latency sleep and two corrective
backspaces, so key actions are emitted after cancellation is observed. -/
theorem C4_cancellation_counterexample :
    (maybe_letter_typo settings_default stop_at_two 0 ['a', 'b', 'c', 'd']
        ⟨0, TypoType.omission, 2, 'x'⟩).1
      = [Act.typeChar 'a', Act.sleep, Act.sleep, Act.backspace, Act.sleep,
         Act.backspace, Act.sleep] ∧
      stop_at_two 2 = true ∧
      Act.backspace ∈ ((maybe_letter_typo settings_default stop_at_two 0
          ['a', 'b', 'c', 'd'] ⟨0, TypoType.omission, 2, 'x'⟩).1.drop 2) := by
  decide

/-- Claim C4 (amended): the cancellation flag is polled before each token
and before each character `_type_slow` types — once observed at such a check
`_type_slow` emits nothing further — but `_backspace` never polls the flag,
so the corrective backspaces (and the correction-latency sleep) of a typo
path in progress are still emitted after cancellation is observed. -/
theorem C4_cancellation_amended :
    (∀ (stop : Nat → Bool) (k : Nat) (cs : List Char),
        stop k = true → typeSlow stop k cs = []) ∧
      ((maybe_letter_typo settings_default stop_at_two 0 ['a', 'b', 'c', 'd']
          ⟨0, TypoType.omission, 2, 'x'⟩).1.count Act.backspace = 2 ∧
        stop_at_two 2 = true) := by
  refine ⟨?_, by decide, by decide⟩
  intro stop k cs h
  cases cs with
  | nil => rfl
  | cons c rest => simp [typeSlow, h]

theorem C4_cancellation_amended_witness :
    typeSlow stop_at_two 2 ['z'] = [] ∧ stop_at_two 2 = true :=
  ⟨C4_cancellation_amended.1 stop_at_two 2 ['z'] (by decide),
   C4_cancellation_amended.2.2⟩

/-- The four dispatch branches of the token loop in `type_text`
(lines 267-291). -/
inductive Branch where
  | whitespace
  | word
  | punct
  | other
deriving DecidableEq, Repr

/-- Python `str.isalnum()`: non-empty and every character alphanumeric. -/
def pyIsAlnum (t : List Char) : Bool :=
  !t.isEmpty && t.all Char.isAlphanum

/-- `token in PUNCTUATION_SET`: a single character belonging to the set. -/
def punctSingle : List Char → Bool
  | [c] => punctuation_set.contains c
  | _ => false

/-- The branch chosen for a token by `type_text` (lines 267-291):
`token.strip() == ""`, then
`token.isalnum() or ("'" in token and token.replace("'", "").isalnum())`,
then `token in PUNCTUATION_SET`, else the verbatim branch. -/
def tokenBranch (t : List Char) : Branch :=
  if t.all Char.isWhitespace then Branch.whitespace
  else if pyIsAlnum t
      || (t.contains apostropheChar
          && pyIsAlnum (t.filter (fun c => c != apostropheChar))) then
    Branch.word
  else if punctSingle t then Branch.punct
  else Branch.other

/-- Claim C5 (counterexample): "a_b" is a single Word token of the tokenizer
(underscore is a word character there), yet the session's word-branch
predicate rejects it, so it is dispatched to the verbatim branch: no typo
injection and no pause scheduling happen for it. -/
theorem C5_underscore_counterexample :
    tokenize ['a', '_', 'b'] = [['a', '_', 'b']] ∧
      isWordChar '_' = true ∧
      tokenBranch ['a', '_', 'b'] = Branch.other ∧
      Branch.other ≠ Branch.word := by
  decide

/-- An alphanumeric character is not whitespace. -/
theorem alnum_not_ws (c : Char) (h : c.isAlphanum = true) :
    c.isWhitespace = false := by
  by_contra hws
  rw [Bool.not_eq_false] at hws
  have hcases : ((c = ' ' ∨ c = '\t') ∨ c = '\x0d') ∨ c = '\n' := by
    simpa [Char.isWhitespace, Bool.or_eq_true, beq_iff_eq,
      decide_eq_true_eq] using hws
  rcases hcases with ((rfl | rfl) | rfl) | rfl <;> exact absurd h (by decide)

/-- Claim C5 (amended): a non-empty all-alphanumeric token takes the word
path (sample WPM, typo injector, remainder, pause scheduler), but every
token containing an underscore is dispatched to the verbatim Other branch
and bypasses the typo injector and the pause scheduler. -/
theorem C5_word_dispatch_amended :
    (∀ t : List Char, t ≠ [] → t.all Char.isAlphanum = true →
        tokenBranch t = Branch.word) ∧
      (∀ t : List Char, '_' ∈ t → tokenBranch t = Branch.other) := by
  constructor
  · intro t ht hall
    cases t with
    | nil => exact absurd rfl ht
    | cons c rest =>
        have hca : c.isAlphanum = true := by
          have := List.all_eq_true.mp hall c (by simp)
          simpa using this
        have hws : (c :: rest).all Char.isWhitespace = false := by
          cases hws' : (c :: rest).all Char.isWhitespace
          · rfl
          · have := List.all_eq_true.mp hws' c (by simp)
            rw [alnum_not_ws c hca] at this
            exact absurd this (by decide)
        have hpy : pyIsAlnum (c :: rest) = true := by
          simp [pyIsAlnum, hall]
        simp [tokenBranch, hws, hpy]
  · intro t hmem
    have h1 : t.all Char.isWhitespace = false := by
      cases hws : t.all Char.isWhitespace
      · rfl
      · exact absurd (List.all_eq_true.mp hws '_' hmem) (by decide)
    have h2 : t.all Char.isAlphanum = false := by
      cases ha : t.all Char.isAlphanum
      · rfl
      · exact absurd (List.all_eq_true.mp ha '_' hmem) (by decide)
    have h2f : (t.filter (fun c => c != apostropheChar)).all Char.isAlphanum
        = false := by
      have hmf : '_' ∈ t.filter (fun c => c != apostropheChar) :=
        List.mem_filter.mpr ⟨hmem, by decide⟩
      cases hf : (t.filter (fun c => c != apostropheChar)).all Char.isAlphanum
      · rfl
      · exact absurd (List.all_eq_true.mp hf '_' hmf) (by decide)
    have h4 : punctSingle t = false := by
      cases t with
      | nil => cases hmem
      | cons c rest =>
          cases rest with
          | nil =>
              have hc : c = '_' := by
                have := List.mem_singleton.mp hmem
                exact this.symm
              subst hc
              decide
          | cons c2 rest2 => rfl
    simp [tokenBranch, pyIsAlnum, h1, h2, h2f, h4]

theorem C5_word_dispatch_amended_witness :
    tokenBranch ['h', 'i'] = Branch.word ∧
      tokenBranch ['a', '_'] = Branch.other :=
  ⟨C5_word_dispatch_amended.1 ['h', 'i'] (by decide) (by decide),
   C5_word_dispatch_amended.2 ['a', '_'] (by decide)⟩

/-- Outcome of a call to `HumanTyper.start`: a synchronously surfaced error
(there is none in the source) and whether the background thread was
spawned. -/
structure StartOutcome where
  err : Option String
  spawned : Bool
deriving DecidableEq

/-- `HumanTyper.start` (lines 296-313): clears the stop event, defines the
`run` closure and spawns the daemon thread unconditionally; no configuration
validation of any kind is performed before spawning. -/
def humanTyper_start (s : Settings) : StartOutcome :=
  { err := none, spawned := true }

/-- The WPM validation of the GUI layer `App._read_settings` (line 444),
which rejects `min_wpm <= 0 or max_wpm < min_wpm` before a `HumanTyper` is
ever constructed. -/
def read_settings_wpm_ok (min_wpm max_wpm : ℚ) : Bool :=
  !(decide (min_wpm ≤ 0) || decide (max_wpm < min_wpm))

/-- Claim C6 (counterexample): with min_wpm = 0 the engine's `start` raises
no error and spawns the background task anyway — session start does not fail
before the background task exists. -/
theorem C6_start_no_validation_counterexample :
    (humanTyper_start settings_min0).err = none ∧
      (humanTyper_start settings_min0).spawned = true ∧
      settings_min0.min_wpm = 0 :=
  ⟨rfl, rfl, rfl⟩

/-- Claim C6 (amended): the engine performs no configuration validation at
session start — `HumanTyper.start` always spawns the background task with no
error, for every configuration including min_wpm = 0; the only
minWPM/maxWPM check in the program is the GUI's `_read_settings`, which
rejects min_wpm = 0 before a typer is constructed. -/
theorem C6_start_validation_amended :
    (∀ s : Settings, humanTyper_start s = { err := none, spawned := true }) ∧
      read_settings_wpm_ok 0 70 = false :=
  ⟨fun _ => rfl, by decide⟩

/-- Status messages, beeps, one-second countdown sleeps, key actions and a
raised exception, as emitted by the background `run` closure. -/
inductive Event where
  | status (msg : String)
  | beep
  | sleep1
  | act (a : Act)
  | raised (msg : String)
deriving DecidableEq

/-- The message of the RuntimeError raised by `type_text` when the keyboard
controller is unavailable. -/
def pynput_missing_msg : String := "pynput is not available"

/-- The countdown loop of `run` (lines 301-305): one status, one beep and a
one-second sleep per remaining second, counting down. -/
def countdown_events : Nat → List Event
  | 0 => []
  | n + 1 =>
      Event.status ("Typing starts in " ++ toString (n + 1) ++ "...")
        :: Event.beep :: Event.sleep1 :: countdown_events n

/-- The entry of `type_text` (lines 240-241): if the keyboard controller is
unavailable a RuntimeError is raised before any tokenization or key action;
otherwise the typing events (`typing`) follow. -/
def type_text_entry (kb : Bool) (typing : List Event) : List Event :=
  if !kb then [Event.raised pynput_missing_msg] else typing

/-- The `run` closure of `HumanTyper.start` (lines 298-310): preparation
status, the countdown, the typing status, then `type_text`; the final status
is reached only if no exception escaped `type_text`. -/
def run_events (kb : Bool) (countdown : Nat) (typing : List Event) :
    List Event :=
  Event.status "Click into your target text field now..."
    :: countdown_events countdown
    ++ Event.status "Typing..." :: type_text_entry kb typing
    ++ (if !kb then [] else [Event.status "Done or stopped."])

/-- Claim C7 (counterexample): with the keyboard dependency unavailable and
a 3-second countdown, the dependency error is raised as the last of 12
events; the full countdown (beeps included) runs before it, so the error is
not surfaced before the countdown starts. -/
theorem C7_countdown_counterexample :
    Event.raised pynput_missing_msg ∈ run_events false 3 [] ∧
      Event.raised pynput_missing_msg ∉ (run_events false 3 []).take 11 ∧
      (run_events false 3 []).length = 12 ∧
      Event.beep ∈ (run_events false 3 []).take 11 := by
  decide

theorem no_act_countdown (n : Nat) (a : Act) :
    Event.act a ∉ countdown_events n := by
  induction n with
  | zero => simp [countdown_events]
  | succ m ih => simp [countdown_events, ih]

/-- Claim C7 (amended): when the keyboard dependency is unavailable, the
background task runs the full countdown first and the dependency error is
raised by `type_text` afterwards — inside the background task, not before
the countdown — but before any key action, so no partial typing occurs. -/
theorem C7_dependency_amended (n : Nat) (typing : List Event) :
    (∀ a : Act, Event.act a ∉ run_events false n typing) ∧
      run_events false n typing
        = Event.status "Click into your target text field now..."
            :: countdown_events n
            ++ [Event.status "Typing...",
                Event.raised pynput_missing_msg] := by
  constructor
  · intro a
    simp [run_events, type_text_entry, no_act_countdown]
  · simp [run_events, type_text_entry]

theorem C10_omission_net_witness :
    (maybe_letter_typo settings_default stop_never 0 ['w', 'o', 'r', 'd']
        ⟨0, TypoType.omission, 1, 'x'⟩).2
      = (true, (['w', 'o', 'r', 'd'] : List Char).take 1, 1) ∧
      (maybe_letter_typo settings_default stop_never 0 ['w', 'o', 'r', 'd']
          ⟨0, TypoType.omission, 1, 'x'⟩).1.count Act.backspace = 1 ∧
      netVisible (word_branch settings_default stop_never 0
          ['w', 'o', 'r', 'd'] ⟨0, TypoType.omission, 1, 'x'⟩)
        = ['w', 'o', 'r', 'd'] :=
  C10_omission_net settings_default ['w', 'o', 'r', 'd']
    ⟨0, TypoType.omission, 1, 'x'⟩ rfl (by decide) rfl (by decide)
    (by decide) (by decide)
